import Mathlib

/-!
Verification of the download resolution and retrieval pipeline of the
google-drive-downloader package (src/validators, src/types, src/services).

The TypeScript source is shallowly embedded: pure functions become Lean
functions over `String` / `List Char` / `List Nat` (byte buffers); the
network effects of the retrieval engine become an explicit `Env` record of
oracles, and JavaScript exceptions become `Except Err`.  JS regular
expressions used by the source are all of the shape
`literal-prefix (charclass+) literal-suffix`; they are embedded as a
left-to-right scan returning the greedy first capture, which coincides with
the JS `String.match` semantics for these patterns because the character
classes exclude the characters that start each suffix.
-/

/-- The extension → media-type table of src/types (mimeTypeMap). -/
def mimeTypeMap : List (String × String) := [
  ("pdf", "application/pdf"),
  ("doc", "application/msword"),
  ("docx", "application/vnd.openxmlformats-officedocument.wordprocessingml.document"),
  ("xls", "application/vnd.ms-excel"),
  ("xlsx", "application/vnd.openxmlformats-officedocument.spreadsheetml.sheet"),
  ("ppt", "application/vnd.ms-powerpoint"),
  ("pptx", "application/vnd.openxmlformats-officedocument.presentationml.presentation"),
  ("txt", "text/plain"),
  ("csv", "text/csv"),
  ("rtf", "application/rtf"),
  ("odt", "application/vnd.oasis.opendocument.text"),
  ("ods", "application/vnd.oasis.opendocument.spreadsheet"),
  ("odp", "application/vnd.oasis.opendocument.presentation"),
  ("jpg", "image/jpeg"),
  ("jpeg", "image/jpeg"),
  ("png", "image/png"),
  ("gif", "image/gif"),
  ("bmp", "image/bmp"),
  ("webp", "image/webp"),
  ("svg", "image/svg+xml"),
  ("mp4", "video/mp4"),
  ("avi", "video/x-msvideo"),
  ("mov", "video/quicktime"),
  ("wmv", "video/x-ms-wmv"),
  ("mp3", "audio/mpeg"),
  ("wav", "audio/wav"),
  ("zip", "application/zip"),
  ("rar", "application/x-rar-compressed"),
  ("7z", "application/x-7z-compressed"),
  ("json", "application/json"),
  ("xml", "application/xml"),
  ("html", "text/html"),
  ("css", "text/css"),
  ("js", "application/javascript")]

/-- JS `String.split('.')` on a character list: `splitDotAux s []` is the
list of dot-separated segments of `s`, in order, empty segments kept. -/
def splitDotAux : List Char → List Char → List (List Char)
  | [], acc => [acc.reverse]
  | c :: cs, acc =>
    if c = '.' then acc.reverse :: splitDotAux cs [] else splitDotAux cs (c :: acc)

/-- src/validators detectMimeTypeFromExtension:
`fileName.split('.').pop()?.toLowerCase()` looked up in `mimeTypeMap`,
`null` when the popped segment is empty (falsy) or unknown.
(`Char.toLower` models JS `toLowerCase` on the ASCII table keys.) -/
def detectMimeTypeFromExtension (fileName : String) : Option String :=
  let parts := splitDotAux fileName.toList []
  let extension := String.mk ((parts.getLastD []).map Char.toLower)
  if extension = "" then none else List.lookup extension mimeTypeMap

/-- Bytes of an ASCII string, for Buffer substring checks. -/
def strBytes (s : String) : List Nat := s.toList.map Char.toNat

/-- Whether `pat` occurs as a contiguous block of `s`
(JS `String.includes` on byte / char lists). -/
def seqContains [BEq α] (pat : List α) : List α → Bool
  | [] => pat.isEmpty
  | x :: rest => pat.isPrefixOf (x :: rest) || seqContains pat rest

/-- JS `String.includes` for the content-type and mime-type checks. -/
def strContains (s pat : String) : Bool := seqContains pat.toList s.toList

/-- `mimeType?.includes(pat)` on a nullable string. -/
def optIncludes (m : Option String) (pat : String) : Bool :=
  match m with
  | none => false
  | some s => strContains s pat

def octetStream : String := "application/octet-stream"

/-- src/services detectMimeTypeFromBuffer.  A Buffer is a byte list; an
out-of-range JS index (`undefined`, never equal to a byte constant) is
modelled by the sentinel 256.  `buffer.slice(a,b).toString() === lit` for
an ASCII literal `lit` of length `b - a` holds exactly when the bytes at
`a..b-1` are the character codes of `lit`, which is how each signature
test is rendered. -/
def detectMimeTypeFromBuffer (buffer : List Nat) : String :=
  if buffer.length < 4 then octetStream
  else if buffer.take 4 = strBytes "%PDF" then "application/pdf"
  else
    let fb := fun i => buffer.getD i 256
    if fb 0 = 0xFF ∧ fb 1 = 0xD8 ∧ fb 2 = 0xFF then "image/jpeg"
    else if fb 0 = 0x89 ∧ fb 1 = 0x50 ∧ fb 2 = 0x4E ∧ fb 3 = 0x47 then "image/png"
    else if buffer.take 3 = strBytes "GIF" then "image/gif"
    else if buffer.take 4 = strBytes "RIFF" ∧ (buffer.drop 8).take 4 = strBytes "WEBP" then
      "image/webp"
    else if fb 0 = 0x50 ∧ fb 1 = 0x4B then
      let zipBuffer := buffer.take 100
      if seqContains (strBytes "word/") zipBuffer then
        "application/vnd.openxmlformats-officedocument.wordprocessingml.document"
      else if seqContains (strBytes "xl/") zipBuffer then
        "application/vnd.openxmlformats-officedocument.spreadsheetml.sheet"
      else if seqContains (strBytes "ppt/") zipBuffer then
        "application/vnd.openxmlformats-officedocument.presentationml.presentation"
      else "application/zip"
    else octetStream

/-- A source regex of shape `pre (cls+) suf`: literal prefix, one-or-more
characters of class `cls` as the capturing group, literal suffix. -/
structure Pattern where
  pre : String
  cls : Char → Bool
  suf : String

/-- The regex character class `[a-zA-Z0-9-_]` of the file-id patterns. -/
def idChar (c : Char) : Bool :=
  ('a' ≤ c && c ≤ 'z') || ('A' ≤ c && c ≤ 'Z') || ('0' ≤ c && c ≤ '9') || c = '-' || c = '_'

/-- src/validators fileIdPatterns, in source order. -/
def fileIdPatterns : List Pattern := [
  ⟨"/file/d/", idChar, ""⟩,
  ⟨"id=", idChar, ""⟩,
  ⟨"/d/", idChar, "/view"⟩,
  ⟨"/d/", idChar, "/edit"⟩,
  ⟨"/document/d/", idChar, ""⟩,
  ⟨"/spreadsheets/d/", idChar, ""⟩,
  ⟨"/presentation/d/", idChar, ""⟩,
  ⟨"/forms/d/", idChar, ""⟩,
  ⟨"/drawings/d/", idChar, ""⟩]

/-- Strip a literal sequence from the front, or fail. -/
def stripPre : List Char → List Char → Option (List Char)
  | [], s => some s
  | _ :: _, [] => none
  | p :: ps, c :: cs => if p = c then stripPre ps cs else none

/-- Try to match a `Pattern` anchored at the start of `s`, returning the
capture.  The greedy `cls+` group takes the maximal class run; because
every `cls` used excludes the first character of the corresponding `suf`,
this is exactly the backtracking JS semantics. -/
def matchAt (p : Pattern) (s : List Char) : Option String :=
  match stripPre p.pre.toList s with
  | none => none
  | some rest =>
    let run := rest.takeWhile p.cls
    if run.isEmpty then none
    else if p.suf.toList.isPrefixOf (rest.dropWhile p.cls) then some (String.mk run)
    else none

/-- JS `String.match` for a `Pattern`: the capture of the leftmost match. -/
def findMatch (p : Pattern) : List Char → Option String
  | [] => matchAt p []
  | c :: cs =>
    match matchAt p (c :: cs) with
    | some r => some r
    | none => findMatch p cs

/-- First-match-wins over the pattern list (the `for...of` loop of
extractFileId). -/
def tryPatterns : List Pattern → List Char → Option String
  | [], _ => none
  | p :: ps, s =>
    match findMatch p s with
    | some r => some r
    | none => tryPatterns ps s

def invalidUrlError : String := "Invalid URL provided"

def fileIdNotFoundError : String :=
  "File ID not found in URL. Please verify it is a valid Google Drive URL"

/-- JS `String.trim`: drop whitespace from both ends (`url.trim()`). -/
def cleanUrl (url : String) : List Char :=
  ((url.toList.dropWhile Char.isWhitespace).reverse.dropWhile Char.isWhitespace).reverse

/-- src/validators extractFileId.  The `url` argument is a `String`, so the
JS `typeof url !== 'string'` guard has no analogue; `!url` is the empty
string test.  A thrown `Error` is an `Except.error` carrying its message. -/
def extractFileId (url : String) : Except String String :=
  if url = "" then .error invalidUrlError
  else
    match tryPatterns fileIdPatterns (cleanUrl url) with
    | some r => .ok r
    | none => .error fileIdNotFoundError

/-- The five Workspace mime types listed in GoogleDriveDownloader. -/
def googleDocMimeTypes : List String := [
  "application/vnd.google-apps.document",
  "application/vnd.google-apps.spreadsheet",
  "application/vnd.google-apps.presentation",
  "application/vnd.google-apps.form",
  "application/vnd.google-apps.drawing"]

/-- src/services getDownloadUrls, translated push by push. -/
def getDownloadUrls (fileId : String) (mimeType : Option String) (exportFormat : String) :
    List String :=
  (if optIncludes mimeType "document" then
    (if exportFormat = "original" ∨ exportFormat = "docx" then
      ["https://docs.google.com/document/d/" ++ fileId ++ "/export?format=docx"] else [])
    ++ (if exportFormat = "pdf" ∨ exportFormat = "original" then
      ["https://docs.google.com/document/d/" ++ fileId ++ "/export?format=pdf"] else [])
  else if optIncludes mimeType "spreadsheet" then
    (if exportFormat = "original" ∨ exportFormat = "xlsx" then
      ["https://docs.google.com/spreadsheets/d/" ++ fileId ++ "/export?format=xlsx"] else [])
    ++ (if exportFormat = "pdf" ∨ exportFormat = "original" then
      ["https://docs.google.com/spreadsheets/d/" ++ fileId ++ "/export?format=pdf"] else [])
  else if optIncludes mimeType "presentation" then
    (if exportFormat = "original" ∨ exportFormat = "pptx" then
      ["https://docs.google.com/presentation/d/" ++ fileId ++ "/export?format=pptx"] else [])
    ++ (if exportFormat = "pdf" ∨ exportFormat = "original" then
      ["https://docs.google.com/presentation/d/" ++ fileId ++ "/export?format=pdf"] else [])
  else [])
  ++ ["https://drive.usercontent.google.com/download?id=" ++ fileId
        ++ "&export=download&authuser=0",
      "https://drive.usercontent.google.com/download?id=" ++ fileId
        ++ "&export=download&confirm=t",
      "https://drive.usercontent.google.com/download?id=" ++ fileId ++ "&export=download"]
  ++ ["https://drive.google.com/uc?export=download&id=" ++ fileId,
      "https://drive.google.com/uc?id=" ++ fileId ++ "&export=download"]

/-- src/types IFileInfo (`mimeType: string | null`). -/
structure IFileInfo where
  name : String
  mimeType : Option String
  size : Option Nat
deriving DecidableEq

/-- src/types IDownloadedFile.  A drained Buffer is its byte list, a live
stream is an opaque handle. -/
structure IDownloadedFile where
  buffer : Option (List Nat)
  stream : Option Nat
  mimetype : String
  originalname : String
  size : Option Nat
deriving DecidableEq

/-- src/types IDownloadResult, all optional fields explicit. -/
structure IDownloadResult where
  success : Bool
  file : Option IDownloadedFile
  fileName : Option String
  fileId : Option String
  mimeType : Option String
  size : Option Nat
  error : Option String
  totalBytes : Option Nat
deriving DecidableEq

/-- src/types IDownloadOptions, every field optional with the defaults
resolved inside `download`. -/
structure IDownloadOptions where
  timeout : Option Nat
  maxRetries : Option Nat
  retryDelay : Option Nat
  exportFormat : Option String
  asBuffer : Option Bool

/-- A thrown JS `Error`, carrying its message. -/
structure Err where
  msg : String
deriving DecidableEq

deriving instance DecidableEq for Except

/-- An axios response as the engine consumes it: the declared headers, the
outcome `drain` that `streamToBuffer(response.data)` would produce (ok
bytes, or the size-cap / timeout / stream failure), and an opaque handle
standing for `response.data` as a live stream. -/
structure Response where
  contentType : String
  contentLength : Option String
  drain : Except Err (List Nat)
  streamId : Nat
deriving DecidableEq

/-- The transport and scraping oracles around one `download` call.
`fetch` is the streaming GET of the candidate loop (and of the confirmed
large-file GET via `confirmFetch`); `getText` is the plain GET used for
the confirmation page.  `api` and `pageName` abstract the two metadata
sources: the Drive v3 JSON call, and the view-page title scrape (the
title / og:title parsing itself is abstracted into the delivered name). -/
structure Env where
  api : Except Err IFileInfo
  pageName : Except Err (Option String)
  fetch : String → Except Err Response
  getText : String → Except Err String
  confirmFetch : String → Except Err Response

/-- Modelled from the spec: the defaults of src/config (missing from the
sources) — timeout 30000 ms, maxRetries 3, and a base retry delay. -/
def CONFIG.DEFAULT_MAX_RETRIES : Nat := 3

/-- Modelled from the spec: base delay of the exponential backoff. -/
def CONFIG.DEFAULT_RETRY_DELAY : Nat := 1000

/-- src/services getFileInfoFromPage: on a scraped name, infer the mime
type from its extension; if the page fetch itself fails, fall back to the
synthetic `file_<id>` name with null mime type.  Never throws. -/
def getFileInfoFromPage (env : Env) (fileId : String) : IFileInfo :=
  match env.pageName with
  | .error _ => { name := "file_" ++ fileId, mimeType := none, size := none }
  | .ok nm =>
    let fileName := nm.getD ("file_" ++ fileId)
    { name := fileName, mimeType := detectMimeTypeFromExtension fileName, size := none }

/-- src/services getFileInfo: Drive API result, else the page fallback.
Both failure branches are caught internally, so the function is total. -/
def getFileInfo (env : Env) (fileId : String) : IFileInfo :=
  match env.api with
  | .ok info => info
  | .error _ => getFileInfoFromPage env fileId

/-- src/services retryWithBackoff, from attempt number `attempt` with
`fuel` further attempts allowed.  Returns the outcome together with the
list of sleeps performed between attempts (`baseDelay * 2 ^ attempt`). -/
def retryAux (fn : Nat → Except Err α) (baseDelay attempt : Nat) :
    Nat → Except Err α × List Nat
  | 0 => (fn attempt, [])
  | fuel + 1 =>
    match fn attempt with
    | .ok v => (.ok v, [])
    | .error _ =>
      let r := retryAux fn baseDelay (attempt + 1) fuel
      (r.1, baseDelay * 2 ^ attempt :: r.2)

/-- src/services retryWithBackoff: attempts `0..maxRetries`, returning the
first success or throwing the error of the final attempt. -/
def retryWithBackoff (fn : Nat → Except Err α) (maxRetries baseDelay : Nat) :
    Except Err α × List Nat :=
  retryAux fn baseDelay 0 maxRetries

/-- JS `parseInt(h || '0', 10) || 0` for the content-length header:
leading decimal digits after trimming, 0 when absent or unparseable. -/
def parseContentLength (h : Option String) : Nat :=
  let digits := (h.getD "0").trim.toList.takeWhile Char.isDigit
  if digits = [] then 0 else digits.foldl (fun acc c => acc * 10 + (c.toNat - 48)) 0

/-- JS `m || 'application/octet-stream'` on a nullable mime string. -/
def orOctet (m : Option String) : String :=
  match m with
  | none => octetStream
  | some s => if s = "" then octetStream else s

/-- The name/type adjustment at the head of processDownloadResponse: when a
non-`original` export of a Workspace type was requested, swap the file
name's extension for the export format and re-derive the mime type.
Returns (finalMimeType, finalFileName).  `stripLastExt` is the JS
`name.replace(/\.[^.]*$/, '')`. -/
def stripLastExt (name : String) : String :=
  match name.toList.reverse.dropWhile (· ≠ '.') with
  | [] => name
  | _ :: rest => String.mk rest.reverse

/-- The adjusted (mime, name) pair of processDownloadResponse. -/
def adjustedNameMime (fileInfo : IFileInfo) (exportFormat : String) :
    Option String × String :=
  if exportFormat ≠ "original" ∧ googleDocMimeTypes.contains (fileInfo.mimeType.getD "") then
    let finalFileName := stripLastExt fileInfo.name ++ "." ++ exportFormat
    (detectMimeTypeFromExtension finalFileName, finalFileName)
  else (fileInfo.mimeType, fileInfo.name)

/-- src/services processDownloadResponse.  In buffer mode the body is
drained (`streamToBuffer`, whose failures propagate), the mime type is
re-derived from content with extension fallback, and the result carries
the buffer; in stream mode the live handle and the header length are
carried instead. -/
def processDownloadResponse (response : Response) (fileInfo : IFileInfo)
    (fileId : String) (asBuffer : Bool) (exportFormat : String) :
    Except Err IDownloadResult :=
  let finalMimeType0 := (adjustedNameMime fileInfo exportFormat).1
  let finalFileName := (adjustedNameMime fileInfo exportFormat).2
  if asBuffer then
    match response.drain with
    | .error e => .error e
    | .ok buffer =>
      let detected := detectMimeTypeFromBuffer buffer
      let m1 := if detected ≠ octetStream then some detected else finalMimeType0
      let m2 :=
        if m1 = none ∨ m1 = some "" ∨ m1 = some octetStream then
          match detectMimeTypeFromExtension finalFileName with
          | some e => some e
          | none => m1
        else m1
      .ok { success := true,
            file := some ⟨some buffer, none, orOctet m2, finalFileName, some buffer.length⟩,
            fileName := some finalFileName, fileId := some fileId,
            mimeType := some (orOctet m2), size := some buffer.length,
            error := none, totalBytes := none }
  else
    .ok { success := true,
          file := some ⟨none, some response.streamId, orOctet finalMimeType0,
                        finalFileName, none⟩,
          fileName := some finalFileName, fileId := some fileId,
          mimeType := some (orOctet finalMimeType0), size := none, error := none,
          totalBytes := some (parseContentLength response.contentLength) }

def confirmUrl (fileId : String) : String :=
  "https://drive.google.com/uc?export=download&id=" ++ fileId

def confirmedUrl (confirmToken fileId : String) : String :=
  "https://drive.google.com/uc?export=download&confirm=" ++ confirmToken ++ "&id=" ++ fileId

/-- The `/confirm=([^&"']+)/` token scrape over the confirmation page. -/
def extractConfirmToken (body : String) : Option String :=
  findMatch ⟨"confirm=", fun c => !(c = '&' || c = '"' || c = '\''), ""⟩ body.toList

/-- The wrap applied by downloadLargeFile's catch. -/
def wrapLarge (e : Err) : Err := ⟨"Large file download error: " ++ e.msg⟩

/-- src/services downloadLargeFile: fetch the canonical uc endpoint, scrape
a `confirm=` token, issue the confirmed GET, and materialize; every failure
inside is rethrown wrapped as a large-file error. -/
def downloadLargeFile (env : Env) (fileId : String) (fileInfo : IFileInfo)
    (asBuffer : Bool) (exportFormat : String) : Except Err IDownloadResult :=
  match env.getText (confirmUrl fileId) with
  | .error e => .error (wrapLarge e)
  | .ok body =>
    match extractConfirmToken body with
    | none => .error (wrapLarge ⟨"Confirmation token not found for large file"⟩)
    | some confirmToken =>
      match env.confirmFetch (confirmedUrl confirmToken fileId) with
      | .error e => .error (wrapLarge e)
      | .ok response =>
        match processDownloadResponse response fileInfo fileId asBuffer exportFormat with
        | .error e => .error (wrapLarge e)
        | .ok res => .ok res

/-- Outcome of the candidate iteration in `download`. -/
inductive LoopOutcome where
  | accepted (r : Response)
  | largeFile
  | threw (e : Err)
deriving DecidableEq

/-- Whether the response declares an HTML payload
(`contentType.includes('text/html')`). -/
def isHtmlResponse (r : Response) : Bool := strContains r.contentType "text/html"

/-- The `for (let i = 0; ...)` candidate loop of `download`: an HTML
response on a non-last candidate is discarded, on the last candidate it
routes to the large-file flow; a transport error is absorbed except on the
last candidate, where it is rethrown; a non-HTML response is accepted.
The `[]` case is the `if (!response) throw` guard after the loop. -/
def fetchLoop (env : Env) : List String → LoopOutcome
  | [] => .threw ⟨"All download attempts failed"⟩
  | [u] =>
    match env.fetch u with
    | .error e => .threw e
    | .ok r => if isHtmlResponse r then .largeFile else .accepted r
  | u :: u' :: rest =>
    match env.fetch u with
    | .error _ => fetchLoop env (u' :: rest)
    | .ok r => if isHtmlResponse r then fetchLoop env (u' :: rest) else .accepted r

/-- The body of `download`'s try block (everything that can throw). -/
def downloadInner (env : Env) (url : String) (options : IDownloadOptions) :
    Except Err IDownloadResult :=
  let maxRetries := options.maxRetries.getD CONFIG.DEFAULT_MAX_RETRIES
  let exportFormat := options.exportFormat.getD "original"
  let asBuffer := options.asBuffer.getD true
  match extractFileId url with
  | .error e => .error ⟨e⟩
  | .ok fileId =>
    match (retryWithBackoff (fun _ => .ok (getFileInfo env fileId)) maxRetries
        CONFIG.DEFAULT_RETRY_DELAY).1 with
    | .error e => .error e
    | .ok fileInfo =>
      let downloadUrls := getDownloadUrls fileId fileInfo.mimeType exportFormat
      match fetchLoop env downloadUrls with
      | .threw e => .error e
      | .largeFile => downloadLargeFile env fileId fileInfo asBuffer exportFormat
      | .accepted response =>
        processDownloadResponse response fileInfo fileId asBuffer exportFormat

/-- The failure literal of `download`'s boundary catch. -/
def failureResult (e : Err) : IDownloadResult :=
  { success := false, file := none, fileName := none, fileId := none,
    mimeType := none, size := none, error := some e.msg, totalBytes := none }

/-- src/services GoogleDriveDownloader.download: the whole pipeline inside
one try, any thrown error converted at the boundary into a failure result.
Total by construction — the public operation never raises. -/
def download (env : Env) (url : String) (options : IDownloadOptions) : IDownloadResult :=
  match downloadInner env url options with
  | .ok r => r
  | .error e => failureResult e

/-- The export base URL and native export format indicated by a media
type, with the source's if/else-if priority (substring containment,
document first). -/
def nativeExport (mimeType : Option String) : Option (String × String) :=
  if optIncludes mimeType "document" then
    some ("https://docs.google.com/document/d/", "docx")
  else if optIncludes mimeType "spreadsheet" then
    some ("https://docs.google.com/spreadsheets/d/", "xlsx")
  else if optIncludes mimeType "presentation" then
    some ("https://docs.google.com/presentation/d/", "pptx")
  else none

/-- Step 1 of the candidate policy: at most two export URLs, native format
first (included iff the requested format is `original` or the native
format), then pdf (included iff `original` or `pdf`). -/
def exportCandidates (fileId : String) (mimeType : Option String) (exportFormat : String) :
    List String :=
  match nativeExport mimeType with
  | none => []
  | some (base, native) =>
    (if exportFormat = "original" ∨ exportFormat = native then
      [base ++ fileId ++ "/export?format=" ++ native] else [])
    ++ (if exportFormat = "original" ∨ exportFormat = "pdf" then
      [base ++ fileId ++ "/export?format=" ++ "pdf"] else [])

/-- The three user-content variants in the order the source pushes them:
authuser=0, then confirm=t, then the default variant. -/
def usercontentCandidates (fileId : String) : List String :=
  ["https://drive.usercontent.google.com/download?id=" ++ fileId
     ++ "&export=download&authuser=0",
   "https://drive.usercontent.google.com/download?id=" ++ fileId
     ++ "&export=download&confirm=t",
   "https://drive.usercontent.google.com/download?id=" ++ fileId ++ "&export=download"]

/-- The three user-content variants in the order the claim states them:
default, then authuser=0, then confirm=t. -/
def claimedUsercontentCandidates (fileId : String) : List String :=
  ["https://drive.usercontent.google.com/download?id=" ++ fileId ++ "&export=download",
   "https://drive.usercontent.google.com/download?id=" ++ fileId
     ++ "&export=download&authuser=0",
   "https://drive.usercontent.google.com/download?id=" ++ fileId
     ++ "&export=download&confirm=t"]

/-- The two legacy /uc variants. -/
def legacyCandidates (fileId : String) : List String :=
  ["https://drive.google.com/uc?export=download&id=" ++ fileId,
   "https://drive.google.com/uc?id=" ++ fileId ++ "&export=download"]

/-- Well-formed transport: every error the transport can surface unwrapped
carries a non-empty message. -/
def EnvWF (env : Env) : Prop :=
  (∀ u e, env.fetch u = .error e → e.msg ≠ "")
  ∧ (∀ u r e, env.fetch u = .ok r → r.drain = .error e → e.msg ≠ "")


/-- A concrete pdf response for witnesses. -/
def witnessResponse : Response :=
  { contentType := "application/pdf", contentLength := some "4",
    drain := .ok (strBytes "%PDF"), streamId := 7 }


/-- A concrete environment whose every fetch succeeds with a pdf body. -/
def witnessEnvOk : Env :=
  { api := .ok { name := "report.pdf", mimeType := some "application/pdf", size := some 4 },
    pageName := .ok none,
    fetch := fun _ => .ok witnessResponse,
    getText := fun _ => .ok "",
    confirmFetch := fun _ => .ok witnessResponse }


/-- A concrete environment whose every transport call fails. -/
def witnessEnvFail : Env :=
  { api := .ok { name := "f", mimeType := none, size := none },
    pageName := .ok none,
    fetch := fun _ => .error { msg := "netfail" },
    getText := fun _ => .error { msg := "netfail" },
    confirmFetch := fun _ => .error { msg := "netfail" } }


/-- Empty options: every default applies. -/
def witnessOptions : IDownloadOptions := ⟨none, none, none, none, none⟩


/-- An HTML interstitial response for witnesses. -/
def witnessHtmlResponse : Response :=
  { contentType := "text/html; charset=utf-8", contentLength := none,
    drain := .ok [], streamId := 1 }


/-- An environment whose fetches return HTML and whose confirmation page
contains no token. -/
def witnessEnvHtml : Env :=
  { api := .ok { name := "f", mimeType := none, size := none },
    pageName := .ok none,
    fetch := fun _ => .ok witnessHtmlResponse,
    getText := fun _ => .ok "<html>no token here</html>",
    confirmFetch := fun _ => .ok witnessResponse }

/-- Decomposition of the produced candidate list into the three policy
steps, with the export step bounded by two URLs. -/
theorem getDownloadUrls_decomp (fileId : String) (m : Option String) (ef : String) :
    getDownloadUrls fileId m ef
      = exportCandidates fileId m ef ++ usercontentCandidates fileId
          ++ legacyCandidates fileId
    ∧ (exportCandidates fileId m ef).length ≤ 2 := by
  unfold getDownloadUrls exportCandidates nativeExport usercontentCandidates
    legacyCandidates
  cases h1 : optIncludes m "document" <;> cases h2 : optIncludes m "spreadsheet" <;>
    cases h3 : optIncludes m "presentation" <;>
    refine ⟨?_, ?_⟩ <;>
    simp only [h1, h2, h3, Bool.false_eq_true, if_true, if_false] <;>
    (try split_ifs) <;>
    simp_all [String.append_assoc,
      show ("/export?format=" ++ "docx" : String) = "/export?format=docx" from rfl,
      show ("/export?format=" ++ "xlsx" : String) = "/export?format=xlsx" from rfl,
      show ("/export?format=" ++ "pptx" : String) = "/export?format=pptx" from rfl,
      show ("/export?format=" ++ "pdf" : String) = "/export?format=pdf" from rfl]

/-- C2, counterexample: at the concrete input (fileId "A", no media type,
export format "original") the candidate list does NOT follow the claimed
order of the three user-content variants (default, then authuser=0, then
confirm=t) — the source pushes authuser=0 first, then confirm=t, then the
default variant. -/
theorem getDownloadUrls_claimed_order_counterexample :
    getDownloadUrls "A" none "original"
      ≠ exportCandidates "A" none "original" ++ claimedUsercontentCandidates "A"
          ++ legacyCandidates "A" := by decide

/-- C2, amended: for every file identifier, media type and export format,
the candidate list is the export step (at most two URLs, native format
before pdf, native included iff the requested format is `original` or the
native format, pdf included iff `original` or `pdf`), then the three
user-content variants in the order authuser=0, confirm=t, default, then
the two legacy /uc variants. -/
theorem getDownloadUrls_priority_policy (fileId : String) (mimeType : Option String)
    (exportFormat : String) :
    getDownloadUrls fileId mimeType exportFormat
      = exportCandidates fileId mimeType exportFormat ++ usercontentCandidates fileId
          ++ legacyCandidates fileId
    ∧ (exportCandidates fileId mimeType exportFormat).length ≤ 2 :=
  getDownloadUrls_decomp fileId mimeType exportFormat

/-- C10: for every file identifier, media type (including none) and export
format, the candidate list has between 5 and 7 elements, is non-empty, and
its final five elements are the three user-content variants followed by
the two legacy /uc variants. -/
theorem getDownloadUrls_always_five_tail (fileId : String) (mimeType : Option String)
    (exportFormat : String) :
    ∃ pre : List String, pre.length ≤ 2 ∧
      getDownloadUrls fileId mimeType exportFormat
        = pre ++ (usercontentCandidates fileId ++ legacyCandidates fileId) ∧
      5 ≤ (getDownloadUrls fileId mimeType exportFormat).length ∧
      (getDownloadUrls fileId mimeType exportFormat).length ≤ 7 ∧
      getDownloadUrls fileId mimeType exportFormat ≠ [] := by
  obtain ⟨hEq, hLen⟩ := getDownloadUrls_decomp fileId mimeType exportFormat
  refine ⟨exportCandidates fileId mimeType exportFormat, hLen, ?_, ?_, ?_, ?_⟩
  · rw [hEq, List.append_assoc]
  · rw [hEq]
    simp [usercontentCandidates, legacyCandidates]
  · rw [hEq]
    simp [usercontentCandidates, legacyCandidates]
    omega
  · rw [hEq]
    simp [usercontentCandidates, legacyCandidates]

theorem splitDotAux_ne_nil (s acc : List Char) : splitDotAux s acc ≠ [] := by
  induction s generalizing acc with
  | nil => simp [splitDotAux]
  | cons c cs ih =>
    simp only [splitDotAux]
    split
    · simp
    · exact ih _

theorem splitDotAux_no_dot (s acc : List Char) (h : ∀ c ∈ s, c ≠ '.') :
    splitDotAux s acc = [acc.reverse ++ s] := by
  induction s generalizing acc with
  | nil => simp [splitDotAux]
  | cons c cs ih =>
    have hc : c ≠ '.' := h c (by simp)
    simp only [splitDotAux, if_neg hc]
    rw [ih (c :: acc) (fun x hx => h x (by simp [hx]))]
    simp

theorem getLastD_indep (l : List (List Char)) (hl : l ≠ []) (d1 d2 : List Char) :
    l.getLastD d1 = l.getLastD d2 := by
  cases l with
  | nil => contradiction
  | cons x xs => rw [List.getLastD_cons, List.getLastD_cons]

/-- The last split segment of `a ++ "." ++ b` is the last segment of `b`. -/
theorem splitDotAux_append_dot (a b acc : List Char) :
    (splitDotAux (a ++ '.' :: b) acc).getLastD [] = (splitDotAux b []).getLastD [] := by
  induction a generalizing acc with
  | nil =>
    rw [List.nil_append,
      show splitDotAux ('.' :: b) acc = acc.reverse :: splitDotAux b [] from by
        simp [splitDotAux],
      List.getLastD_cons]
    exact getLastD_indep _ (splitDotAux_ne_nil _ _) _ _
  | cons c cs ih =>
    rw [List.cons_append]
    simp only [splitDotAux]
    split
    · rw [List.getLastD_cons]
      exact (getLastD_indep _ (splitDotAux_ne_nil _ _) _ _).trans (ih [])
    · exact ih _

theorem string_mk_eq_empty_iff (s : String) :
    String.mk (s.toList.map Char.toLower) = "" ↔ s = "" := by
  constructor
  · intro h2
    have hd : List.map Char.toLower s.toList = [] := congrArg String.data h2
    rw [List.map_eq_nil_iff] at hd
    exact String.ext hd
  · intro h2
    subst h2
    rfl

theorem detect_no_dot_aux (name : String) (h : ∀ c ∈ name.toList, c ≠ '.') :
    detectMimeTypeFromExtension name
      = if name = "" then none
        else List.lookup (String.mk (name.toList.map Char.toLower)) mimeTypeMap := by
  simp only [detectMimeTypeFromExtension]
  rw [splitDotAux_no_dot name.toList [] h]
  simp only [List.getLastD_cons, List.getLastD_nil, List.reverse_nil, List.nil_append]
  rw [if_congr (string_mk_eq_empty_iff name) rfl rfl]

theorem detect_with_dot_aux (stem ext : String) (h : ∀ c ∈ ext.toList, c ≠ '.') :
    detectMimeTypeFromExtension (stem ++ "." ++ ext)
      = if ext = "" then none
        else List.lookup (String.mk (ext.toList.map Char.toLower)) mimeTypeMap := by
  simp only [detectMimeTypeFromExtension]
  have hdata : (stem ++ "." ++ ext).toList = stem.toList ++ '.' :: ext.toList := by
    show (stem ++ "." ++ ext).data = stem.data ++ '.' :: ext.data
    simp [String.data_append]
  rw [hdata, splitDotAux_append_dot, splitDotAux_no_dot ext.toList [] h]
  simp only [List.getLastD_cons, List.getLastD_nil, List.reverse_nil, List.nil_append]
  rw [if_congr (string_mk_eq_empty_iff ext) rfl rfl]

/-- C6, counterexample: the claim says a file name with no dot yields
nothing, but on the dot-free input "pdf" the extractor returns the pdf
media type — JS `split('.').pop()` on a dot-free name is the whole name,
which is then looked up in the table. -/
theorem detectMimeTypeFromExtension_no_dot_counterexample :
    detectMimeTypeFromExtension "pdf" = some "application/pdf"
    ∧ '.' ∉ "pdf".toList := by decide

/-- C6 (amended): for a name of the form `stem ++ "." ++ ext` with a
dot-free `ext`, the extractor returns exactly the table entry for the
lower-cased `ext` (none when `ext` is empty or unknown); a dot-free name
is treated as its own extension — lower-cased and looked up whole — so it
returns nothing only when that lookup fails or the name is empty, not for
every dot-free name. -/
theorem detectMimeTypeFromExtension_characterization (stem ext name : String) :
    ((∀ c ∈ ext.toList, c ≠ '.') →
      detectMimeTypeFromExtension (stem ++ "." ++ ext)
        = if ext = "" then none
          else List.lookup (String.mk (ext.toList.map Char.toLower)) mimeTypeMap)
    ∧ ((∀ c ∈ name.toList, c ≠ '.') →
      detectMimeTypeFromExtension name
        = if name = "" then none
          else List.lookup (String.mk (name.toList.map Char.toLower)) mimeTypeMap) :=
  ⟨detect_with_dot_aux stem ext, detect_no_dot_aux name⟩

/-- Witness for C6 at concrete inputs: "report.PDF" resolves through the
table, the dot-free unknown name "q7z" resolves to none. -/
theorem detectMimeTypeFromExtension_characterization_witness :
    detectMimeTypeFromExtension ("report" ++ "." ++ "PDF") = some "application/pdf"
    ∧ detectMimeTypeFromExtension "q7z" = none := by
  have h := detectMimeTypeFromExtension_characterization "report" "PDF" "q7z"
  refine ⟨?_, ?_⟩
  · rw [h.1 (by decide)]
    decide
  · rw [h.2 (by decide)]
    decide

/-- C7: the content classifier maps the canonical leading signatures to
their media types — %PDF, the jpeg/png magic numbers, GIF, RIFF+WEBP at
offset 8 — refines a PK-prefixed buffer by searching its first 100 bytes
for word/, xl/ or ppt/ to distinguish Office Open XML from generic zip,
and returns the generic octet-stream marker for any buffer shorter than 4
bytes or matching no signature. -/
theorem detectMimeTypeFromBuffer_signatures (b : List Nat) (b0 b1 b2 b3 : Nat)
    (rest : List Nat) :
    (b.length < 4 → detectMimeTypeFromBuffer b = octetStream)
    ∧ (b0 = 37 ∧ b1 = 80 ∧ b2 = 68 ∧ b3 = 70 →
        detectMimeTypeFromBuffer (b0 :: b1 :: b2 :: b3 :: rest) = "application/pdf")
    ∧ (b0 = 255 ∧ b1 = 216 ∧ b2 = 255 →
        detectMimeTypeFromBuffer (b0 :: b1 :: b2 :: b3 :: rest) = "image/jpeg")
    ∧ (b0 = 137 ∧ b1 = 80 ∧ b2 = 78 ∧ b3 = 71 →
        detectMimeTypeFromBuffer (b0 :: b1 :: b2 :: b3 :: rest) = "image/png")
    ∧ (b0 = 71 ∧ b1 = 73 ∧ b2 = 70 →
        detectMimeTypeFromBuffer (b0 :: b1 :: b2 :: b3 :: rest) = "image/gif")
    ∧ (b0 = 82 ∧ b1 = 73 ∧ b2 = 70 ∧ b3 = 70 ∧ (rest.drop 4).take 4 = strBytes "WEBP" →
        detectMimeTypeFromBuffer (b0 :: b1 :: b2 :: b3 :: rest) = "image/webp")
    ∧ (b0 = 80 ∧ b1 = 75 →
        detectMimeTypeFromBuffer (b0 :: b1 :: b2 :: b3 :: rest)
          = (if seqContains (strBytes "word/") ((b0 :: b1 :: b2 :: b3 :: rest).take 100) then
              "application/vnd.openxmlformats-officedocument.wordprocessingml.document"
            else if seqContains (strBytes "xl/") ((b0 :: b1 :: b2 :: b3 :: rest).take 100) then
              "application/vnd.openxmlformats-officedocument.spreadsheetml.sheet"
            else if seqContains (strBytes "ppt/") ((b0 :: b1 :: b2 :: b3 :: rest).take 100) then
              "application/vnd.openxmlformats-officedocument.presentationml.presentation"
            else "application/zip"))
    ∧ (¬(b0 = 37 ∧ b1 = 80 ∧ b2 = 68 ∧ b3 = 70) →
       ¬(b0 = 255 ∧ b1 = 216 ∧ b2 = 255) →
       ¬(b0 = 137 ∧ b1 = 80 ∧ b2 = 78 ∧ b3 = 71) →
       ¬(b0 = 71 ∧ b1 = 73 ∧ b2 = 70) →
       ¬(b0 = 82 ∧ b1 = 73 ∧ b2 = 70 ∧ b3 = 70 ∧ (rest.drop 4).take 4 = strBytes "WEBP") →
       ¬(b0 = 80 ∧ b1 = 75) →
        detectMimeTypeFromBuffer (b0 :: b1 :: b2 :: b3 :: rest) = octetStream) := by
  refine ⟨?_, ?_, ?_, ?_, ?_, ?_, ?_, ?_⟩
  · intro hlen
    unfold detectMimeTypeFromBuffer
    rw [if_pos hlen]
  · rintro ⟨rfl, rfl, rfl, rfl⟩
    simp [detectMimeTypeFromBuffer, strBytes]
  · rintro ⟨rfl, rfl, rfl⟩
    simp [detectMimeTypeFromBuffer, strBytes,
      show ("%PDF".toList.map Char.toNat) = [37, 80, 68, 70] from rfl]
  · rintro ⟨rfl, rfl, rfl, rfl⟩
    simp [detectMimeTypeFromBuffer, strBytes,
      show ("%PDF".toList.map Char.toNat) = [37, 80, 68, 70] from rfl]
  · rintro ⟨rfl, rfl, rfl⟩
    simp [detectMimeTypeFromBuffer, strBytes,
      show ("%PDF".toList.map Char.toNat) = [37, 80, 68, 70] from rfl,
      show ("GIF".toList.map Char.toNat) = [71, 73, 70] from rfl]
  · rintro ⟨rfl, rfl, rfl, rfl, hwebp⟩
    simp [detectMimeTypeFromBuffer, strBytes,
      show ("%PDF".toList.map Char.toNat) = [37, 80, 68, 70] from rfl,
      show ("GIF".toList.map Char.toNat) = [71, 73, 70] from rfl,
      show ("RIFF".toList.map Char.toNat) = [82, 73, 70, 70] from rfl, hwebp]
  · rintro ⟨rfl, rfl⟩
    simp [detectMimeTypeFromBuffer, strBytes,
      show ("%PDF".toList.map Char.toNat) = [37, 80, 68, 70] from rfl,
      show ("GIF".toList.map Char.toNat) = [71, 73, 70] from rfl,
      show ("RIFF".toList.map Char.toNat) = [82, 73, 70, 70] from rfl]
  · intro h1 h2 h3 h4 h5 h6
    simp only [detectMimeTypeFromBuffer, strBytes,
      show ("%PDF".toList.map Char.toNat) = [37, 80, 68, 70] from rfl,
      show ("GIF".toList.map Char.toNat) = [71, 73, 70] from rfl,
      show ("RIFF".toList.map Char.toNat) = [82, 73, 70, 70] from rfl,
      show ("WEBP".toList.map Char.toNat) = [87, 69, 66, 80] from rfl,
      List.take_succ_cons, List.take_zero, List.getD_cons_zero, List.getD_cons_succ,
      List.drop_succ_cons, List.drop_zero, List.length_cons, List.cons.injEq, and_true]
    split_ifs <;> simp_all [show strBytes "WEBP" = [87, 69, 66, 80] from rfl]

/-- Witness for C7 at concrete buffers: a pdf signature and a 3-byte
buffer. -/
theorem detectMimeTypeFromBuffer_signatures_witness :
    detectMimeTypeFromBuffer (37 :: 80 :: 68 :: 70 :: [45]) = "application/pdf"
    ∧ detectMimeTypeFromBuffer [1, 2, 3] = octetStream := by
  have h := detectMimeTypeFromBuffer_signatures [1, 2, 3] 37 80 68 70 [45]
  exact ⟨h.2.1 (by decide), h.1 (by decide)⟩
theorem retryAux_success (fn : Nat → Except Err α) (errs : Nat → Err) (v : α) (k base : Nat)
    (h1 : ∀ i, i < k → fn i = .error (errs i)) (h2 : fn k = .ok v) :
    ∀ fuel attempt, attempt ≤ k → k ≤ attempt + fuel →
      retryAux fn base attempt fuel
        = (.ok v, (List.range' attempt (k - attempt)).map (fun i => base * 2 ^ i)) := by
  intro fuel
  induction fuel with
  | zero =>
    intro attempt hle hge
    have hak : attempt = k := by omega
    subst hak
    simp [retryAux, h2]
  | succ fuel ih =>
    intro attempt hle hge
    rcases eq_or_lt_of_le hle with hak | hlt
    · subst hak
      simp [retryAux, h2]
    · have hf := h1 attempt hlt
      simp only [retryAux, hf]
      rw [ih (attempt + 1) (by omega) (by omega)]
      rw [show k - attempt = (k - (attempt + 1)) + 1 by omega, List.range'_succ]
      simp

theorem retryAux_failure (fn : Nat → Except Err α) (errs : Nat → Err) (k base : Nat)
    (h1 : ∀ i, i < k → fn i = .error (errs i)) :
    ∀ fuel attempt, attempt + fuel < k →
      retryAux fn base attempt fuel
        = (.error (errs (attempt + fuel)),
           (List.range' attempt fuel).map (fun i => base * 2 ^ i)) := by
  intro fuel
  induction fuel with
  | zero =>
    intro attempt hlt
    have hf := h1 attempt (by omega)
    simp [retryAux, hf]
  | succ fuel ih =>
    intro attempt hlt
    have hf := h1 attempt (by omega)
    simp only [retryAux, hf]
    rw [ih (attempt + 1) (by omega)]
    rw [List.range'_succ]
    simp only [List.map_cons, Prod.mk.injEq]
    refine ⟨by rw [show attempt + (fuel + 1) = attempt + 1 + fuel by omega], trivial⟩

/-- C4: a wrapped function failing exactly `k` times and then succeeding
is retried to success when `maxRetries ≥ k` — at most `maxRetries` sleeps
beyond the first attempt, each sleep being `baseDelay * 2 ^ attempt` —
and with `maxRetries < k` the call rethrows exactly the error observed on
the final attempt (attempt number `maxRetries`). -/
theorem retryWithBackoff_spec (fn : Nat → Except Err α) (errs : Nat → Err) (v : α)
    (k maxRetries baseDelay : Nat)
    (h1 : ∀ i, i < k → fn i = .error (errs i)) (h2 : fn k = .ok v) :
    (k ≤ maxRetries →
      retryWithBackoff fn maxRetries baseDelay
        = (.ok v, (List.range k).map (fun i => baseDelay * 2 ^ i)))
    ∧ (maxRetries < k →
      retryWithBackoff fn maxRetries baseDelay
        = (.error (errs maxRetries), (List.range maxRetries).map (fun i => baseDelay * 2 ^ i)))
    ∧ (retryWithBackoff fn maxRetries baseDelay).2.length ≤ maxRetries := by
  refine ⟨?_, ?_, ?_⟩
  · intro hk
    rw [retryWithBackoff, retryAux_success fn errs v k baseDelay h1 h2 maxRetries 0
      (by omega) (by omega), List.range_eq_range']
    simp
  · intro hk
    rw [retryWithBackoff, retryAux_failure fn errs k baseDelay h1 maxRetries 0 (by omega),
      List.range_eq_range']
    simp
  · rcases le_or_lt k maxRetries with hk | hk
    · rw [retryWithBackoff, retryAux_success fn errs v k baseDelay h1 h2 maxRetries 0
        (by omega) (by omega)]
      simp
      omega
    · rw [retryWithBackoff, retryAux_failure fn errs k baseDelay h1 maxRetries 0 (by omega)]
      simp

/-- Witness for C4: a function failing twice then returning 42, retried
with budget 3 (success, sleeps 10 and 20) and with budget 1 (failure with
the second attempt's error, one sleep). -/
theorem retryWithBackoff_spec_witness :
    retryWithBackoff (fun i => if i < 2 then (.error ⟨"boom"⟩ : Except Err Nat) else .ok 42) 3 10
      = (.ok 42, [10, 20])
    ∧ retryWithBackoff (fun i => if i < 2 then (.error ⟨"boom"⟩ : Except Err Nat) else .ok 42) 1 10
      = (.error ⟨"boom"⟩, [10]) := by
  have hA := (retryWithBackoff_spec
    (fun i => if i < 2 then (.error ⟨"boom"⟩ : Except Err Nat) else .ok 42)
    (fun _ => ⟨"boom"⟩) 42 2 3 10 (by decide) (by decide)).1 (by decide)
  have hB := (retryWithBackoff_spec
    (fun i => if i < 2 then (.error ⟨"boom"⟩ : Except Err Nat) else .ok 42)
    (fun _ => ⟨"boom"⟩) 42 2 1 10 (by decide) (by decide)).2.1 (by decide)
  rw [hA, hB]
  refine ⟨by rfl, by rfl⟩
theorem tryPatterns_none_iff (ps : List Pattern) (s : List Char) :
    tryPatterns ps s = none ↔ ∀ p ∈ ps, findMatch p s = none := by
  induction ps with
  | nil => simp [tryPatterns]
  | cons p ps ih =>
    simp only [tryPatterns]
    cases hp : findMatch p s with
    | some r => simp [hp]
    | none => simpa [hp] using ih

theorem tryPatterns_first (ps1 : List Pattern) (p : Pattern) (ps2 : List Pattern)
    (s : List Char) (id : String)
    (hnone : ∀ q ∈ ps1, findMatch q s = none) (hp : findMatch p s = some id) :
    tryPatterns (ps1 ++ p :: ps2) s = some id := by
  induction ps1 with
  | nil => simp [tryPatterns, hp]
  | cons q qs ih =>
    have hq : findMatch q s = none := hnone q (by simp)
    simp only [List.cons_append, tryPatterns, hq]
    exact ih (fun r hr => hnone r (by simp [hr]))

/-- C5: the identifier extractor fails with the invalid-input error exactly
when the URL is empty, fails with the not-found error exactly when no
pattern of `fileIdPatterns` matches the trimmed URL, and otherwise returns
the capture of the first matching pattern in the list order (/file/d/,
then id=, then /d/…/view, then /d/…/edit, then the
document/spreadsheets/presentation/forms/drawings path shapes). -/
theorem extractFileId_characterization (url : String) :
    (extractFileId url = .error invalidUrlError ↔ url = "")
    ∧ (extractFileId url = .error fileIdNotFoundError
        ↔ (url ≠ "" ∧ ∀ p ∈ fileIdPatterns, findMatch p (cleanUrl url) = none))
    ∧ (∀ ps1 p ps2 id, fileIdPatterns = ps1 ++ p :: ps2 →
        (∀ q ∈ ps1, findMatch q (cleanUrl url) = none) →
        findMatch p (cleanUrl url) = some id →
        url ≠ "" → extractFileId url = .ok id) := by
  refine ⟨?_, ?_, ?_⟩
  · constructor
    · intro h
      by_contra hne
      rw [extractFileId, if_neg hne] at h
      cases htry : tryPatterns fileIdPatterns (cleanUrl url) with
      | some r => rw [htry] at h; cases h
      | none =>
        rw [htry] at h
        have : fileIdNotFoundError = invalidUrlError := by injection h
        exact absurd this (by decide)
    · intro h
      rw [extractFileId, if_pos h]
  · constructor
    · intro h
      by_cases hne : url = ""
      · rw [extractFileId, if_pos hne] at h
        have : invalidUrlError = fileIdNotFoundError := by injection h
        exact absurd this (by decide)
      · refine ⟨hne, ?_⟩
        rw [extractFileId, if_neg hne] at h
        cases htry : tryPatterns fileIdPatterns (cleanUrl url) with
        | some r => rw [htry] at h; cases h
        | none => exact (tryPatterns_none_iff _ _).mp htry
    · rintro ⟨hne, hall⟩
      rw [extractFileId, if_neg hne, (tryPatterns_none_iff _ _).mpr hall]
  · intro ps1 p ps2 id hsplit hnone hp hne
    rw [extractFileId, if_neg hne, hsplit, tryPatterns_first ps1 p ps2 _ id hnone hp]

/-- Witness for C5: a direct file link resolves through the first pattern
to its embedded identifier. -/
theorem extractFileId_characterization_witness :
    extractFileId "https://drive.google.com/file/d/ABC123/view" = .ok "ABC123" := by
  have h := (extractFileId_characterization "https://drive.google.com/file/d/ABC123/view").2.2
  exact h [] ⟨"/file/d/", idChar, ""⟩ fileIdPatterns.tail "ABC123" rfl (by simp)
    (by decide) (by decide)

theorem extractFileId_error_msgs (url s : String) (h : extractFileId url = .error s) :
    s = invalidUrlError ∨ s = fileIdNotFoundError := by
  unfold extractFileId at h
  split at h
  · injection h with h2
    exact Or.inl h2.symm
  · split at h
    · cases h
    · injection h with h2
      exact Or.inr h2.symm

theorem retry_const_ok (v : α) (m b : Nat) :
    retryWithBackoff (fun _ => (.ok v : Except Err α)) m b = (.ok v, []) := by
  cases m with
  | zero => rfl
  | succ n => rfl

theorem wrapLarge_msg_ne_empty (e : Err) : (wrapLarge e).msg ≠ "" := by
  intro h
  have h2 := congrArg String.length h
  rw [wrapLarge, String.length_append] at h2
  have h3 : ("Large file download error: ").length = 27 := by decide
  have h4 : ("" : String).length = 0 := rfl
  rw [h3, h4] at h2
  omega

theorem process_error_drain (r : Response) (fi : IFileInfo) (fid : String) (ab : Bool)
    (ef : String) (e : Err) (h : processDownloadResponse r fi fid ab ef = .error e) :
    r.drain = .error e := by
  unfold processDownloadResponse at h
  split at h
  · split at h
    · injection h with h2
      rw [← h2]
      assumption
    · cases h
  · cases h

theorem process_ok_success (r : Response) (fi : IFileInfo) (fid : String) (ab : Bool)
    (ef : String) (res : IDownloadResult)
    (h : processDownloadResponse r fi fid ab ef = .ok res) : res.success = true := by
  unfold processDownloadResponse at h
  split at h
  · split at h
    · cases h
    · injection h with h2
      rw [← h2]
  · injection h with h2
    rw [← h2]

theorem process_file_shape (r : Response) (fi : IFileInfo) (fid : String) (ab : Bool)
    (ef : String) (res : IDownloadResult)
    (h : processDownloadResponse r fi fid ab ef = .ok res) :
    ∃ f, res.file = some f
      ∧ (ab = true → f.buffer.isSome ∧ f.stream = none)
      ∧ (ab = false → f.buffer = none ∧ f.stream.isSome) := by
  simp only [processDownloadResponse] at h
  by_cases hab : ab = true
  · rw [if_pos hab] at h
    cases hd : r.drain with
    | error e => rw [hd] at h; cases h
    | ok buffer =>
      rw [hd] at h
      injection h with h2
      subst h2
      exact ⟨_, rfl, fun _ => ⟨rfl, rfl⟩, fun hf => by rw [hf] at hab; cases hab⟩
  · rw [if_neg hab] at h
    injection h with h2
    subst h2
    exact ⟨_, rfl, fun ht => absurd ht hab, fun _ => ⟨rfl, rfl⟩⟩

theorem downloadLargeFile_error_wrapped (env : Env) (fid : String) (fi : IFileInfo)
    (ab : Bool) (ef : String) (e : Err)
    (h : downloadLargeFile env fid fi ab ef = .error e) : ∃ e2, e = wrapLarge e2 := by
  unfold downloadLargeFile at h
  split at h
  · injection h with h2
    exact ⟨_, h2.symm⟩
  · split at h
    · injection h with h2
      exact ⟨_, h2.symm⟩
    · split at h
      · injection h with h2
        exact ⟨_, h2.symm⟩
      · split at h
        · injection h with h2
          exact ⟨_, h2.symm⟩
        · cases h

theorem downloadLargeFile_ok_process (env : Env) (fid : String) (fi : IFileInfo)
    (ab : Bool) (ef : String) (res : IDownloadResult)
    (h : downloadLargeFile env fid fi ab ef = .ok res) :
    ∃ r, processDownloadResponse r fi fid ab ef = .ok res := by
  unfold downloadLargeFile at h
  split at h
  · cases h
  · split at h
    · cases h
    · split at h
      · cases h
      · split at h
        · cases h
        · injection h with h2
          subst h2
          rename_i hres
          exact ⟨_, hres⟩

theorem fetchLoop_threw_cases (env : Env) :
    ∀ us e, fetchLoop env us = .threw e →
      e = ⟨"All download attempts failed"⟩ ∨ ∃ u, env.fetch u = .error e := by
  intro us
  induction us with
  | nil =>
    intro e h
    simp only [fetchLoop] at h
    injection h with h2
    exact Or.inl h2.symm
  | cons u us ih =>
    intro e h
    cases us with
    | nil =>
      simp only [fetchLoop] at h
      cases hf : env.fetch u with
      | error e2 =>
        rw [hf] at h
        injection h with h2
        exact Or.inr ⟨u, by rw [hf, h2]⟩
      | ok r =>
        rw [hf] at h
        dsimp only at h
        split at h <;> cases h
    | cons u2 rest =>
      simp only [fetchLoop] at h
      cases hf : env.fetch u with
      | error e2 =>
        rw [hf] at h
        exact ih e h
      | ok r =>
        rw [hf] at h
        dsimp only at h
        split at h
        · exact ih e h
        · cases h

theorem fetchLoop_accepted_fetch (env : Env) :
    ∀ us r, fetchLoop env us = .accepted r → ∃ u, env.fetch u = .ok r := by
  intro us
  induction us with
  | nil =>
    intro r h
    simp only [fetchLoop] at h
    cases h
  | cons u us ih =>
    intro r h
    cases us with
    | nil =>
      simp only [fetchLoop] at h
      cases hf : env.fetch u with
      | error e2 => rw [hf] at h; cases h
      | ok r2 =>
        rw [hf] at h
        dsimp only at h
        split at h
        · cases h
        · injection h with h2
          exact ⟨u, by rw [hf, h2]⟩
    | cons u2 rest =>
      simp only [fetchLoop] at h
      cases hf : env.fetch u with
      | error e2 => rw [hf] at h; exact ih r h
      | ok r2 =>
        rw [hf] at h
        dsimp only at h
        split at h
        · exact ih r h
        · injection h with h2
          exact ⟨u, by rw [hf, h2]⟩
theorem downloadInner_error_msg_ne_empty (env : Env) (url : String)
    (opts : IDownloadOptions) (hwf : EnvWF env) (e : Err)
    (h : downloadInner env url opts = .error e) : e.msg ≠ "" := by
  simp only [downloadInner] at h
  cases hex : extractFileId url with
  | error s =>
    rw [hex] at h
    injection h with h2
    rcases extractFileId_error_msgs url s hex with hs | hs <;>
      · rw [← h2, hs]
        decide
  | ok fid =>
    rw [hex] at h
    dsimp only at h
    rw [retry_const_ok] at h
    dsimp only at h
    cases hloop : fetchLoop env (getDownloadUrls fid (getFileInfo env fid).mimeType
        (opts.exportFormat.getD "original")) with
    | threw e2 =>
      rw [hloop] at h
      injection h with h2
      subst h2
      rcases fetchLoop_threw_cases env _ _ hloop with hlit | ⟨u, hu⟩
      · rw [hlit]
        decide
      · exact hwf.1 u e2 hu
    | largeFile =>
      rw [hloop] at h
      obtain ⟨e2, rfl⟩ := downloadLargeFile_error_wrapped env _ _ _ _ _ h
      exact wrapLarge_msg_ne_empty e2
    | accepted r =>
      rw [hloop] at h
      have hdrain := process_error_drain _ _ _ _ _ _ h
      obtain ⟨u, hu⟩ := fetchLoop_accepted_fetch env _ _ hloop
      exact hwf.2 u r e hu hdrain

theorem downloadInner_ok_success (env : Env) (url : String) (opts : IDownloadOptions)
    (res : IDownloadResult) (h : downloadInner env url opts = .ok res) :
    res.success = true := by
  simp only [downloadInner] at h
  cases hex : extractFileId url with
  | error s => rw [hex] at h; cases h
  | ok fid =>
    rw [hex] at h
    dsimp only at h
    rw [retry_const_ok] at h
    dsimp only at h
    cases hloop : fetchLoop env (getDownloadUrls fid (getFileInfo env fid).mimeType
        (opts.exportFormat.getD "original")) with
    | threw e2 => rw [hloop] at h; cases h
    | largeFile =>
      rw [hloop] at h
      obtain ⟨r, hr⟩ := downloadLargeFile_ok_process env _ _ _ _ _ h
      exact process_ok_success _ _ _ _ _ _ hr
    | accepted r =>
      rw [hloop] at h
      exact process_ok_success _ _ _ _ _ _ h

/-- C1: the public download operation is total — it never raises.  Any
exception thrown inside the pipeline (identifier extraction, metadata
resolution, candidate fetching, large-file confirmation, materialization)
surfaces as `downloadInner = .error e` and is converted at the boundary
into the failure result with `success = false` and the non-empty message
of the thrown error; when the pipeline completes, the returned result has
`success = true`.  (The hypothesis `EnvWF` states that the transport's own
thrown errors carry non-empty messages, as JS `Error.message` strings do
in practice; every internally generated message is a non-empty literal.) -/
theorem download_never_raises (env : Env) (url : String) (opts : IDownloadOptions)
    (hwf : EnvWF env) :
    (∀ e, downloadInner env url opts = .error e →
      download env url opts = failureResult e
        ∧ (download env url opts).success = false ∧ e.msg ≠ "")
    ∧ (∀ res, downloadInner env url opts = .ok res →
      download env url opts = res ∧ res.success = true) := by
  constructor
  · intro e h
    refine ⟨by rw [download, h], by rw [download, h]; rfl, ?_⟩
    exact downloadInner_error_msg_ne_empty env url opts hwf e h
  · intro res h
    exact ⟨by rw [download, h], downloadInner_ok_success env url opts res h⟩

/-- Witness for C1: with a failing transport the result is the converted
failure carrying the transport's message, which is non-empty. -/
theorem download_never_raises_witness :
    download witnessEnvFail "https://x/file/d/ABC" witnessOptions
      = failureResult ⟨"netfail"⟩ ∧ ("netfail" : String) ≠ "" := by
  have hwf : EnvWF witnessEnvFail :=
    ⟨fun u e h => by injection h with h2; rw [← h2]; decide,
     fun u r e h h2 => nomatch h⟩
  have h := (download_never_raises witnessEnvFail "https://x/file/d/ABC" witnessOptions
    hwf).1 ⟨"netfail"⟩ (by decide)
  exact ⟨h.1, h.2.2⟩
/-- C8: every successful download result carries a file populating exactly
one of buffer or stream, chosen solely by the caller's asBuffer option
(buffer when true — the default — stream when false). -/
theorem download_buffer_xor_stream (env : Env) (url : String) (opts : IDownloadOptions)
    (hs : (download env url opts).success = true) :
    ∃ f, (download env url opts).file = some f
      ∧ (opts.asBuffer.getD true = true → f.buffer.isSome ∧ f.stream = none)
      ∧ (opts.asBuffer.getD true = false → f.buffer = none ∧ f.stream.isSome) := by
  cases hInner : downloadInner env url opts with
  | error e =>
    rw [download, hInner] at hs
    cases hs
  | ok res =>
    have hd : download env url opts = res := by rw [download, hInner]
    rw [hd]
    simp only [downloadInner] at hInner
    cases hex : extractFileId url with
    | error s => rw [hex] at hInner; cases hInner
    | ok fid =>
      rw [hex] at hInner
      dsimp only at hInner
      rw [retry_const_ok] at hInner
      dsimp only at hInner
      cases hloop : fetchLoop env (getDownloadUrls fid (getFileInfo env fid).mimeType
          (opts.exportFormat.getD "original")) with
      | threw e2 => rw [hloop] at hInner; cases hInner
      | largeFile =>
        rw [hloop] at hInner
        obtain ⟨r, hr⟩ := downloadLargeFile_ok_process env _ _ _ _ _ hInner
        exact process_file_shape _ _ _ _ _ _ hr
      | accepted r =>
        rw [hloop] at hInner
        exact process_file_shape _ _ _ _ _ _ hInner

/-- Witness for C8: the all-ok environment in (default) buffer mode yields
a successful result whose file holds a buffer and no stream. -/
theorem download_buffer_xor_stream_witness :
    (download witnessEnvOk "https://x/file/d/ABC" witnessOptions).success = true
    ∧ ∃ f, (download witnessEnvOk "https://x/file/d/ABC" witnessOptions).file = some f
        ∧ f.buffer.isSome ∧ f.stream = none := by
  obtain ⟨f, hf, hb, _⟩ := download_buffer_xor_stream witnessEnvOk "https://x/file/d/ABC"
    witnessOptions (by decide)
  exact ⟨by decide, f, hf, hb rfl⟩
theorem detectMimeTypeFromBuffer_ne_empty (b : List Nat) :
    detectMimeTypeFromBuffer b ≠ "" := by
  unfold detectMimeTypeFromBuffer
  dsimp only
  split_ifs <;> decide

theorem lookup_ne_empty (l : List (String × String)) (hl : ∀ p ∈ l, p.2 ≠ "")
    (k v : String) (h : List.lookup k l = some v) : v ≠ "" := by
  induction l with
  | nil => cases h
  | cons p ps ih =>
    rw [List.lookup] at h
    split at h
    · injection h with h2
      subst h2
      exact hl p (by simp)
    · exact ih (fun q hq => hl q (by simp [hq])) h

theorem detectMimeTypeFromExtension_ne_empty (n e : String)
    (h : detectMimeTypeFromExtension n = some e) : e ≠ "" := by
  simp only [detectMimeTypeFromExtension] at h
  split at h
  · cases h
  · exact lookup_ne_empty mimeTypeMap (by decide) _ e h

/-- C9: in buffer mode the final media type obeys the precedence — a
content classification other than the generic marker wins; otherwise, when
the adjusted prior mime value is absent (null or empty) or the generic
marker, the extension classification of the final file name is used when
it yields a value; otherwise the generic application/octet-stream. When
none of these produced a value the prior mime value stands. -/
theorem process_buffer_mime_precedence (r : Response) (fi : IFileInfo) (fid ef : String)
    (b : List Nat) (res : IDownloadResult)
    (hd : r.drain = .ok b)
    (h : processDownloadResponse r fi fid true ef = .ok res) :
    res.mimeType = some (
      if detectMimeTypeFromBuffer b ≠ octetStream then detectMimeTypeFromBuffer b
      else if (adjustedNameMime fi ef).1 = none ∨ (adjustedNameMime fi ef).1 = some ""
          ∨ (adjustedNameMime fi ef).1 = some octetStream then
        (detectMimeTypeFromExtension (adjustedNameMime fi ef).2).getD octetStream
      else orOctet (adjustedNameMime fi ef).1) := by
  simp only [processDownloadResponse] at h
  rw [if_true, hd] at h
  injection h with h2
  subst h2
  dsimp only
  have hbne := detectMimeTypeFromBuffer_ne_empty b
  by_cases hdet : detectMimeTypeFromBuffer b = octetStream
  · rw [hdet]
    simp only [ne_eq, eq_self_iff_true, not_true, if_false]
    by_cases hc : (adjustedNameMime fi ef).1 = none ∨ (adjustedNameMime fi ef).1 = some ""
        ∨ (adjustedNameMime fi ef).1 = some octetStream
    · rw [if_pos hc, if_pos hc]
      cases hext : detectMimeTypeFromExtension (adjustedNameMime fi ef).2 with
      | some e =>
        have hne := detectMimeTypeFromExtension_ne_empty _ _ hext
        simp [orOctet, hne]
      | none =>
        rcases hc with hc | hc | hc <;> simp [orOctet, hc, octetStream]
    · rw [if_neg hc, if_neg hc]
  · simp only [ne_eq, hdet, not_false_eq_true, if_true]
    simp [orOctet, hbne, hdet]

/-- Witness for C9: the drained %PDF body overrides the prior guess and
the result carries application/pdf. -/
theorem process_buffer_mime_precedence_witness :
    (⟨true, some ⟨some [37, 80, 68, 70], none, "application/pdf", "report.pdf", some 4⟩,
      some "report.pdf", some "ABC", some "application/pdf", some 4, none, none⟩ :
        IDownloadResult).mimeType = some "application/pdf" := by
  have h := process_buffer_mime_precedence witnessResponse
    ⟨"report.pdf", some "application/pdf", some 4⟩ "ABC" "original" (strBytes "%PDF")
    ⟨true, some ⟨some [37, 80, 68, 70], none, "application/pdf", "report.pdf", some 4⟩,
      some "report.pdf", some "ABC", some "application/pdf", some 4, none, none⟩
    (by decide) (by decide)
  rw [h]
  decide
/-- C3: in the candidate loop an HTML response on a non-last candidate is
discarded and the loop continues with the remaining candidates; an HTML
response on the last candidate routes to the large-file flow, which
fetches the canonical uc endpoint, fails with the wrapped
confirmation-token error when the page has no confirm= token, and issues
the confirmed download (building the confirm URL from the scraped token)
when it does. -/
theorem fetchLoop_html_and_confirm (env : Env) (u v : String) (rest : List String)
    (r : Response) (fid : String) (fi : IFileInfo) (ab : Bool) (ef : String) :
    (env.fetch u = .ok r → isHtmlResponse r = true →
      fetchLoop env (u :: v :: rest) = fetchLoop env (v :: rest))
    ∧ (env.fetch u = .ok r → isHtmlResponse r = true →
      fetchLoop env [u] = .largeFile)
    ∧ (∀ html, env.getText (confirmUrl fid) = .ok html →
      extractConfirmToken html = none →
      downloadLargeFile env fid fi ab ef
        = .error ⟨"Large file download error: Confirmation token not found for large file"⟩)
    ∧ (∀ html tok, env.getText (confirmUrl fid) = .ok html →
      extractConfirmToken html = some tok →
      downloadLargeFile env fid fi ab ef
        = (match env.confirmFetch (confirmedUrl tok fid) with
          | .error e => .error (wrapLarge e)
          | .ok response =>
            match processDownloadResponse response fi fid ab ef with
            | .error e => .error (wrapLarge e)
            | .ok res => .ok res)) := by
  refine ⟨?_, ?_, ?_, ?_⟩
  · intro hf hh
    simp only [fetchLoop, hf, hh, if_true]
  · intro hf hh
    simp only [fetchLoop, hf, hh, if_true]
  · intro html hg htok
    simp only [downloadLargeFile, hg, htok]
    rfl
  · intro html tok hg htok
    simp only [downloadLargeFile, hg, htok]

/-- Witness for C3: the last candidate returning HTML routes to the
large-file flow, and a token-free confirmation page fails with the
wrapped confirmation-token error. -/
theorem fetchLoop_html_and_confirm_witness :
    fetchLoop witnessEnvHtml ["u"] = .largeFile
    ∧ downloadLargeFile witnessEnvHtml "ID" ⟨"f", none, none⟩ true "original"
        = .error ⟨"Large file download error: Confirmation token not found for large file"⟩ := by
  have h := fetchLoop_html_and_confirm witnessEnvHtml "u" "v" [] witnessHtmlResponse "ID"
    ⟨"f", none, none⟩ true "original"
  exact ⟨h.2.1 rfl (by decide), h.2.2.1 "<html>no token here</html>" rfl (by decide)⟩
